import Mathlib

/-! Shallow embedding of dataclassy's data class machinery
(`dataclassy/dataclass.py`): the merged annotation schema, the decorator
options, and the generated methods `__init__`, `__hash__`, `__eq__`,
`__lt__`, `__repr__` and the frozen `__setattr__`/`__delattr__`. -/

namespace Dataclassy

/-- Classification of one field's type hint by the `Hint` wrapper classes:
`internal` iff `Internal.is_hinted(hint)`, `hashed` iff `Hashed.is_hinted(hint)`
(dataclass.py lines 26-38). -/
structure Hint where
  internal : Bool
  hashed : Bool
  deriving DecidableEq, Repr

/-- The decorator options, in the order of `DataClassMeta.DEFAULT_OPTIONS`
(dataclass.py line 43). -/
structure Options where
  init : Bool
  repr : Bool
  eq : Bool
  iter : Bool
  frozen : Bool
  kwargs : Bool
  slots : Bool
  order : Bool
  unsafe_hash : Bool
  hide_internals : Bool
  deriving DecidableEq, Repr

/-- `DEFAULT_OPTIONS = dict(init=True, repr=True, eq=True, iter=False,
frozen=False, kwargs=False, slots=False, order=False, unsafe_hash=True,
hide_internals=True)` (dataclass.py line 43). -/
def DEFAULT_OPTIONS : Options :=
  ⟨true, true, true, false, false, false, false, false, true, true⟩

/-- The condition under which `DataClassMeta.__new__` installs a generated
`__hash__`: `(options['eq'] and options['frozen']) or options['unsafe_hash']`
(dataclass.py line 119). -/
def hashInstalled (o : Options) : Bool :=
  (o.eq && o.frozen) || o.unsafe_hash

/-- The merged annotations of a data class: field names with their hint
classification, in merged declaration order (`all_annotations`, a dict with
insertion order, dataclass.py lines 56-64). -/
abbrev Schema := List (String × Hint)

/-- The fields selected by `generate_hash` (dataclass.py line 170): those
whose hint satisfies `Hashed.is_hinted`. -/
def hashFieldNames (anns : Schema) : List String :=
  (anns.filter fun p => p.2.hashed).map Prod.fst

/-- The tuple hashed by the generated `__hash__` (dataclass.py lines 170-172):
the instance's class followed by the values of the `Hashed` fields. Python's
`hash` is modelled by the tuple itself: two instances hash alike exactly when
their tuples agree. -/
def hashTuple (cls : String) (anns : Schema) (vals : String → Int) :
    String × List Int :=
  (cls, (hashFieldNames anns).map vals)

/-- Follows the words of the spec's hashing sentence, NOT the source, for
comparison with `hashFieldNames`: by default all non-internal fields
contribute; when any `Hashed` annotation exists anywhere in the schema,
exactly the `Hashed` fields contribute. -/
def specHashFieldNames (anns : Schema) : List String :=
  if anns.any fun p => p.2.hashed then (anns.filter fun p => p.2.hashed).map Prod.fst
  else (anns.filter fun p => !p.2.internal).map Prod.fst

/-- Modelled from the spec: `dataclassy.functions.fields` is imported by
dataclass.py (line 191) but its source file is absent from the repository
snapshot. Per the spec, the ordered field sequence used by the generated
methods (the `__tuple__` property built in `DataClassMeta.__init__` from
`fields(cls)`, dataclass.py lines 130-133) is the non-internal fields in
merged order. -/
def specFields (anns : Schema) : List String :=
  (anns.filter fun p => !p.2.internal).map Prod.fst

/-- An instance of a data class: its exact class (identity modelled by name),
the method resolution order of that class (own class first, used by
`isinstance`), and its field values. -/
structure Inst (V : Type) where
  cls : String
  mro : List String
  vals : String → V

/-- `self.__tuple__` (dataclass.py lines 130-133): the instance's non-internal
field values in merged order. -/
def tupleOf {V : Type} (anns : Schema) (i : Inst V) : List V :=
  (specFields anns).map i.vals

/-- `__eq__` (dataclass.py lines 194-195):
`type(self) is type(other) and self.__tuple__ == other.__tuple__`. -/
def eqMeth {V : Type} [DecidableEq V] (anns : Schema) (a b : Inst V) : Bool :=
  a.cls == b.cls && tupleOf anns a == tupleOf anns b

/-- CPython's `<` on tuples: lexicographic, first differing element decides,
a strict prefix is smaller. -/
def pyTupleLt : List Int → List Int → Bool
  | [], [] => false
  | [], _ :: _ => true
  | _ :: _, [] => false
  | a :: as, b :: bs => if a < b then true else if b < a then false else pyTupleLt as bs

/-- `__lt__` (dataclass.py lines 198-201): if `isinstance(other, type(self))`
then compare the tuples, else return `NotImplemented` (modelled as `none`). -/
def ltMeth (anns : Schema) (a b : Inst Int) : Option Bool :=
  if a.cls ∈ b.mro then some (pyTupleLt (tupleOf anns a) (tupleOf anns b)) else none

/-! ## The generated `__init__` (`generate_init`, dataclass.py lines 136-164)

`generate_init` receives the merged annotation names and the merged defaults.
Its parameter list is `arguments + default_arguments + args + kwargs` where
`arguments` are the annotation names without a default, `default_arguments`
those with one (each group in annotation order), `*args` is present iff a
user `__init__`/`__post_init__` exists and `**kwargs` iff that or the
`kwargs` option holds. The body assigns each field in annotation order and,
when a user hook exists, ends with `self.__post_init__(*args, **kwargs)`. -/

/-- The closure data of a generated `__init__`: the positional-or-keyword
parameters without and with defaults, and which catch-alls are present. -/
structure GenInit (V : Type) where
  required : List String
  defaulted : List (String × V)
  user_init : Bool
  gen_kwargs : Bool
  deriving DecidableEq, Repr

/-- `generate_init`'s parameter computation (dataclass.py lines 140-143):
`arguments = [a for a in annotations if a not in defaults]`,
`default_arguments = [f'\x7ba\x7d=\x7ba\x7d' for a in annotations if a in defaults]`. -/
def genInit {V : Type} (anns : List String) (defaults : List (String × V))
    (ui gk : Bool) : GenInit V :=
  { required := anns.filter fun a => (defaults.lookup a).isNone
    defaulted := anns.filterMap fun a => (defaults.lookup a).map fun v => (a, v)
    user_init := ui
    gen_kwargs := gk }

/-- The names of the generated `__init__`'s named parameters, in signature
order (dataclass.py line 145). -/
def paramNames {V : Type} (g : GenInit V) : List String :=
  g.required ++ g.defaulted.map Prod.fst

/-- The call-time errors Python raises while binding arguments to the
generated `__init__`'s parameters (all surface as `TypeError`). -/
inductive ArgError where
  | tooManyPositional
  | multipleValues (n : String)
  | unexpectedKeyword (n : String)
  | missingArgument (n : String)
  deriving DecidableEq, Repr

/-- Python keyword-argument binding: each keyword naming a parameter binds it
(an error if it is already bound), any other keyword goes to `**kwargs` when
that catch-all exists and is an error otherwise. Returns (keyword-bound
parameters, the extra keywords captured by `**kwargs`). -/
def kwScan {V : Type} (names bound : List String) (acceptKw : Bool) :
    List (String × V) → Except ArgError (List (String × V) × List (String × V))
  | [] => Except.ok ([], [])
  | (k, v) :: rest =>
    if k ∈ names then
      if k ∈ bound then Except.error (ArgError.multipleValues k)
      else
        match kwScan names (k :: bound) acceptKw rest with
        | Except.ok (kb, ex) => Except.ok ((k, v) :: kb, ex)
        | Except.error e => Except.error e
    else if acceptKw then
      match kwScan names bound acceptKw rest with
      | Except.ok (kb, ex) => Except.ok (kb, (k, v) :: ex)
      | Except.error e => Except.error e
    else Except.error (ArgError.unexpectedKeyword k)

/-- Resolve the default-less parameters: each must have been bound
positionally or by keyword. -/
def resolveRequired {V : Type} (posB kwB : List (String × V)) :
    List String → Except ArgError (List (String × V))
  | [] => Except.ok []
  | r :: rest =>
    match (posB.lookup r).orElse fun _ => kwB.lookup r with
    | some v =>
      match resolveRequired posB kwB rest with
      | Except.ok tl => Except.ok ((r, v) :: tl)
      | Except.error e => Except.error e
    | none => Except.error (ArgError.missingArgument r)

/-- Resolve the defaulted parameters: a positional or keyword binding wins,
otherwise the default value applies. -/
def resolveDefaulted {V : Type} (posB kwB : List (String × V)) :
    List (String × V) → List (String × V)
  | [] => []
  | (d, dv) :: rest =>
    (d, (((posB.lookup d).orElse fun _ => kwB.lookup d).getD dv)) ::
      resolveDefaulted posB kwB rest

/-- Python's binding of a call `__init__(*pos, **kw)` against the generated
signature. On success: the named parameters with their values in signature
order, the extra positional arguments captured by `*args`, and the extra
keywords captured by `**kwargs`. -/
def bindCall {V : Type} (g : GenInit V) (pos : List V) (kw : List (String × V)) :
    Except ArgError (List (String × V) × List V × List (String × V)) :=
  let names := paramNames g
  let posB := names.zip pos
  let extraPos := pos.drop names.length
  if !g.user_init && !extraPos.isEmpty then Except.error ArgError.tooManyPositional
  else
    match kwScan names (posB.map Prod.fst) (g.user_init || g.gen_kwargs) kw with
    | Except.error e => Except.error e
    | Except.ok (kwB, extraKw) =>
      match resolveRequired posB kwB g.required with
      | Except.error e => Except.error e
      | Except.ok reqB =>
        Except.ok (reqB ++ resolveDefaulted posB kwB g.defaulted, extraPos, extraKw)

/-- What one call of the generated `__init__` does, in order: the field
assignments it performs (dataclass.py lines 156-157, one per annotation, in
annotation order), then, when a user hook exists, the trailing
`self.__post_init__(*args, **kwargs)` call with the leftover arguments
(line 162). -/
structure InitTrace (V : Type) where
  assigns : List (String × V)
  hook : Option (List V × List (String × V))
  deriving DecidableEq, Repr

/-- Execute the generated `__init__` on a call: bind the arguments, then
assign every annotation its bound value in annotation order (the
`references`/`assignments` dicts of dataclass.py lines 152-157 iterate
`annotations`), then invoke the post-init hook with the extras if present. -/
def runInit {V : Type} (anns : List String) (defaults : List (String × V))
    (ui gk : Bool) (pos : List V) (kw : List (String × V)) :
    Except ArgError (InitTrace V) :=
  match bindCall (genInit anns defaults ui gk) pos kw with
  | Except.error e => Except.error e
  | Except.ok (bound, extraPos, extraKw) =>
    Except.ok
      { assigns := anns.filterMap fun n => (bound.lookup n).map fun v => (n, v)
        hook := if ui then some (extraPos, extraKw) else none }

/-! ## Frozen classes (dataclass.py lines 113-114, 155-157, 215-217)

`DataClassMeta.__new__` installs the raising `__setattr__` as both
`__setattr__` and `__delattr__` when `options['frozen']` holds; the generated
`__init__` then assigns fields through `object.__setattr__`. -/

/-- The error raised by the frozen `__setattr__`/`__delattr__`
(`AttributeError('Frozen class')`, dataclass.py line 217). -/
inductive MutErr where
  | frozenError
  deriving DecidableEq, Repr

/-- An instance's attribute dictionary. -/
abbrev AttrState (V : Type) := List (String × V)

/-- The privileged low-level write path `object.__setattr__`: store the
attribute in the instance dictionary unconditionally. -/
def objectSetattr {V : Type} (st : AttrState V) (n : String) (v : V) : AttrState V :=
  (n, v) :: st.filter fun p => !(p.1 == n)

/-- The attribute-write entry point of an instance: frozen classes carry the
raising `__setattr__` (dataclass.py lines 113-114 and 215-217), which fails
for every attribute name and every instance state; other classes fall through
to the object default. -/
def setattrMeth {V : Type} (frozen : Bool) (st : AttrState V) (n : String)
    (v : V) : Except MutErr (AttrState V) :=
  if frozen then Except.error MutErr.frozenError
  else Except.ok (objectSetattr st n v)

/-- The attribute-delete entry point: frozen classes carry the same raising
function as `__delattr__` (dataclass.py line 114). -/
def delattrMeth {V : Type} (frozen : Bool) (st : AttrState V) (n : String) :
    Except MutErr (AttrState V) :=
  if frozen then Except.error MutErr.frozenError
  else Except.ok (st.filter fun p => !(p.1 == n))

/-- One field assignment inside the generated `__init__` (dataclass.py lines
155-157): `object.__setattr__(self, n, r)` when the class is frozen, plain
`self.n = r` (the instance write entry point) otherwise. -/
def initAssign {V : Type} (frozen : Bool) (st : AttrState V) (n : String)
    (v : V) : Except MutErr (AttrState V) :=
  if frozen then Except.ok (objectSetattr st n v)
  else setattrMeth frozen st n v

/-- The assignment section of the generated `__init__`, run over the bound
field values in order. -/
def runAssignments {V : Type} (frozen : Bool) :
    List (String × V) → AttrState V → Except MutErr (AttrState V)
  | [], st => Except.ok st
  | (n, v) :: rest, st =>
    match initAssign frozen st n v with
    | Except.ok st2 => runAssignments frozen rest st2
    | Except.error e => Except.error e

/-! ## Mutable default values (dataclass.py lines 151-153)

`references = {n: f'\x7bn\x7d.copy() if \x7bn\x7d is default_\x7bn\x7d else \x7bn\x7d'
if n in defaults and hasattr(defaults[n], 'copy') else n for n in annotations}`:
an argument is copied exactly when it is the very default object. -/

/-- A Python object reference; `is` compares addresses. -/
structure Obj where
  addr : Nat
  deriving DecidableEq, Repr

/-- Heap contents of the mutable objects (a list payload suffices to observe
mutation). -/
abbrev Heap := Nat → List Int

/-- Write the content at one address. -/
def heapSet (h : Heap) (a : Nat) (c : List Int) : Heap :=
  fun x => if x = a then c else h x

/-- A field's default as `generate_init` sees it: the default object
(`default_n`) and whether `hasattr(defaults[n], 'copy')`. -/
structure FieldDefault where
  obj : Obj
  hasCopy : Bool
  deriving DecidableEq, Repr

/-- The reference expression for one constructor argument (dataclass.py line
152): for a field with a copyable default, `n.copy() if n is default_n else
n`; otherwise the argument itself. A copy allocates the same content at the
given fresh address. -/
def processArg (d : Option FieldDefault) (arg : Obj) (fresh : Nat) (h : Heap) :
    Obj × Heap :=
  match d with
  | some fd =>
    if fd.hasCopy && arg.addr == fd.obj.addr then
      (⟨fresh⟩, heapSet h fresh (h arg.addr))
    else (arg, h)
  | none => (arg, h)

/-! ## The generated `__repr__` (dataclass.py lines 208-212)

`f'\x7bf\x7d=...' if v is self else f'\x7bf\x7d=\x7bv!r\x7d'`: only a field
holding the very instance being printed is cut off; any other data class
value is rendered by a full recursive call. Rendering is modelled with
explicit fuel: a result for some fuel means the Python call returns, `none`
for every fuel means the recursion never bottoms out. -/

/-- A field value as seen by `__repr__`: an atom with a primitive rendering,
or a reference to another data class instance. -/
inductive PyVal where
  | atom (n : Int)
  | ref (a : Nat)
  deriving DecidableEq, Repr

/-- A data class instance for rendering: its class name and its fields as
enumerated by `values(self, show_internals)` (dataclassy.functions, rendered
fields in order). -/
structure RInst where
  cls : String
  flds : List (String × PyVal)

/-- The heap of instances under rendering. -/
abbrev IHeap := Nat → RInst

/-- Render a field list for the instance at `selfA`: a field whose value is
the instance being printed renders as the ellipsis marker (`v is self`,
dataclass.py line 210); a reference to any other instance is rendered by the
supplied recursive rendering call. -/
def renderParts (rec : Nat → Option String) (selfA : Nat) :
    List (String × PyVal) → Option (List String)
  | [] => some []
  | (f, v) :: rest =>
    match
      (match v with
       | PyVal.atom k => some (toString k)
       | PyVal.ref b => if b = selfA then some "..." else rec b),
      renderParts rec selfA rest with
    | some s, some tl => some ((f ++ "=" ++ s) :: tl)
    | _, _ => none

/-- `__repr__` of the instance at address `a`, with fuel bounding the
recursion depth: a value for some fuel means the Python call returns; `none`
for every fuel means the recursion never bottoms out. -/
def reprFuel (h : IHeap) : Nat → Nat → Option String
  | 0, _ => none
  | n + 1, a =>
    match renderParts (fun b => reprFuel h n b) a (h a).flds with
    | some parts => some ((h a).cls ++ "(" ++ String.intercalate ", " parts ++ ")")
    | none => none

/-- A single self-referential instance: a field holding the instance being
printed (`r.recurse = r`). -/
def selfHeap : IHeap := fun _ => ⟨"R", [("x", PyVal.ref 0)]⟩

/-- A two-hop cycle: the instance at address 0 holds the one at address 1 and
vice versa. -/
def cycleHeap : IHeap := fun a =>
  if a = 0 then ⟨"A", [("x", PyVal.ref 1)]⟩ else ⟨"B", [("x", PyVal.ref 0)]⟩

/-- A rendering that terminates for some recursion depth. -/
def ReprTerminates (h : IHeap) (a : Nat) : Prop :=
  ∃ n, (reprFuel h n a).isSome

/-- A field value is an atom or a reference to the given address. -/
def selfRefOnly (a : Nat) : PyVal → Bool
  | PyVal.atom _ => true
  | PyVal.ref b => b == a

/-! ## Helper lemmas -/

/-- Mapping two functions over the same list agrees iff they agree on its
members. -/
theorem map_agree_iff {α β : Type} (f g : α → β) :
    ∀ l : List α, l.map f = l.map g ↔ ∀ x ∈ l, f x = g x := by
  intro l
  induction l with
  | nil => simp
  | cons x xs ih => simp [ih]

end Dataclassy

namespace Dataclassy

/-- C1. The claim reads: by default all non-internal field values contribute
to the generated hash, and `Hashed` annotations replace that opt-out with an
opt-in. The source (`generate_hash`, dataclass.py lines 167-172) always
selects exactly the `Hashed` fields: with one plain non-internal field and no
`Hashed` annotation anywhere, the generated hash selects no field at all, so
two instances differing in that field hash alike, while the spec's selection
would include the field. -/
theorem c1_default_hash_counterexample :
    hashFieldNames [("x", ⟨false, false⟩)] ≠ specHashFieldNames [("x", ⟨false, false⟩)]
    ∧ hashTuple "C" [("x", ⟨false, false⟩)] (fun _ => 0)
        = hashTuple "C" [("x", ⟨false, false⟩)] (fun _ => 1) := by
  constructor
  · decide
  · rfl

/-- C1 (amended): the generated hash combines the instance's class with
exactly the `Hashed`-annotated field values — two instances of a class hash
alike iff they agree on every `Hashed` field; in particular, without any
`Hashed` annotation no field value contributes. -/
theorem c1_hash_exactly_hashed_fields (cls : String) (anns : Schema)
    (g g' : String → Int) :
    hashTuple cls anns g = hashTuple cls anns g'
      ↔ ∀ f ∈ hashFieldNames anns, g f = g' f := by
  simp [hashTuple, Prod.ext_iff, map_agree_iff]

/-- C10. Implicit claim: when no field carries a `Hashed` annotation, the
generated hash depends only on the instance's class, and this hash is
installed by default because `(eq and frozen) or unsafe_hash` holds under
`DEFAULT_OPTIONS` (dataclass.py lines 43-44 and 119-120). -/
theorem c10_classonly_hash_installed_by_default (cls : String) (anns : Schema)
    (g g' : String → Int) (h : ∀ p ∈ anns, p.2.hashed = false) :
    hashTuple cls anns g = hashTuple cls anns g'
    ∧ hashInstalled DEFAULT_OPTIONS = true := by
  refine ⟨?_, rfl⟩
  have hf : anns.filter (fun p => p.2.hashed) = [] := by
    rw [List.filter_eq_nil_iff]
    intro p hp
    simp [h p hp]
  simp [hashTuple, hashFieldNames, hf]

/-- Witness for C10 at a concrete schema with one unannotated field and two
instances disagreeing on it. -/
theorem c10_witness :
    hashTuple "C" [("x", ⟨false, false⟩)] (fun _ => 0)
        = hashTuple "C" [("x", ⟨false, false⟩)] (fun _ => 1)
    ∧ hashInstalled DEFAULT_OPTIONS = true :=
  c10_classonly_hash_installed_by_default "C" [("x", ⟨false, false⟩)]
    (fun _ => 0) (fun _ => 1) (by decide)

/-- C3. The generated `__eq__` (dataclass.py lines 194-195) declares two
instances equal iff they are of the exact same type and every non-internal
field, in merged order, compares equal; it is reflexive. The field
enumeration is modelled from the spec (`specFields`), the comparison from the
source. -/
theorem c3_eq_same_type_and_fields (anns : Schema) (a b : Inst Int) :
    (eqMeth anns a b = true
      ↔ a.cls = b.cls ∧ ∀ f ∈ specFields anns, a.vals f = b.vals f)
    ∧ eqMeth anns a a = true := by
  constructor
  · simp [eqMeth, tupleOf, map_agree_iff]
  · simp [eqMeth]

/-- C8. The generated `__lt__` (dataclass.py lines 198-201) yields
`NotImplemented` (modelled `none`) when the right operand is not an instance
of the left operand's type, and compares the ordered field sequences
lexicographically when it is. -/
theorem c8_lt_unrelated_not_supported (anns : Schema) (a b : Inst Int) :
    (a.cls ∉ b.mro → ltMeth anns a b = none)
    ∧ (a.cls ∈ b.mro → ltMeth anns a b
        = some (pyTupleLt ((specFields anns).map a.vals) ((specFields anns).map b.vals))) := by
  constructor
  · intro h
    simp [ltMeth, h]
  · intro h
    simp [ltMeth, h, tupleOf]

/-- Witness for C8: a comparison across unrelated classes yields the
not-supported signal, one within a class compares the field tuples. -/
theorem c8_witness :
    ltMeth [("x", ⟨false, false⟩)] ⟨"A", ["A"], fun _ => 0⟩ ⟨"B", ["B"], fun _ => 0⟩ = none
    ∧ ltMeth [("x", ⟨false, false⟩)] ⟨"A", ["A"], fun _ => 0⟩ ⟨"A", ["A"], fun _ => 1⟩
        = some (pyTupleLt ((specFields [("x", ⟨false, false⟩)]).map fun _ => 0)
            ((specFields [("x", ⟨false, false⟩)]).map fun _ => 1)) :=
  ⟨(c8_lt_unrelated_not_supported [("x", ⟨false, false⟩)]
      ⟨"A", ["A"], fun _ => 0⟩ ⟨"B", ["B"], fun _ => 0⟩).1 (by decide),
   (c8_lt_unrelated_not_supported [("x", ⟨false, false⟩)]
      ⟨"A", ["A"], fun _ => 0⟩ ⟨"A", ["A"], fun _ => 1⟩).2 (by decide)⟩

/-- The defaulted-parameter list of `genInit` carries exactly the annotation
names that have a default, in annotation order. -/
theorem defaulted_names {V : Type} (d : List (String × V)) :
    ∀ anns : List String,
      ((anns.filterMap fun a => (d.lookup a).map fun v => (a, v)).map Prod.fst)
        = anns.filter fun a => (d.lookup a).isSome := by
  intro anns
  induction anns with
  | nil => rfl
  | cons x xs ih =>
    cases hx : d.lookup x with
    | none => simp [List.filterMap_cons, hx, List.filter_cons, ih]
    | some v => simp [List.filterMap_cons, hx, List.filter_cons, ih]

/-- C2. The synthesized constructor's parameter list is the stable partition
of the merged field order — all default-less fields first, then all
default-bearing fields, each group a subsequence of (hence keeping the
relative order of) the merged declaration order; the schema
`a: int, b: int = 2, c: int` yields the signature `(a, c, b=2)`, and calling
it with `(1, 3)` produces `a=1, c=3, b=2`. -/
theorem c2_init_stable_partition (anns : List String) (d : List (String × Int))
    (ui gk : Bool) :
    paramNames (genInit anns d ui gk)
        = (anns.filter fun a => (d.lookup a).isNone)
          ++ (anns.filter fun a => (d.lookup a).isSome)
    ∧ List.Sublist (anns.filter fun a => (d.lookup a).isNone) anns
    ∧ List.Sublist (anns.filter fun a => (d.lookup a).isSome) anns
    ∧ paramNames (genInit ["a", "b", "c"] [("b", (2 : Int))] false false) = ["a", "c", "b"]
    ∧ runInit ["a", "b", "c"] [("b", (2 : Int))] false false [1, 3] []
        = Except.ok ⟨[("a", 1), ("b", 2), ("c", 3)], none⟩ := by
  refine ⟨?_, List.filter_sublist _, List.filter_sublist _, by decide, by rfl⟩
  simp [paramNames, genInit, defaulted_names]

/-- On success, the keywords captured by `**kwargs` are exactly the call's
keywords that name no parameter, in call order. -/
theorem kwScan_extra {V : Type} (names : List String) (acceptKw : Bool) :
    ∀ (kw : List (String × V)) (bound : List String) (kb ex : List (String × V)),
      kwScan names bound acceptKw kw = Except.ok (kb, ex) →
      ex = kw.filter fun p => decide (p.1 ∉ names) := by
  intro kw
  induction kw with
  | nil =>
    intro bound kb ex h
    simp [kwScan] at h
    simpa using h.2
  | cons p rest ih =>
    intro bound kb ex h
    obtain ⟨k, v⟩ := p
    rw [kwScan] at h
    by_cases hk : k ∈ names
    · rw [if_pos hk] at h
      by_cases hb : k ∈ bound
      · rw [if_pos hb] at h
        cases h
      · rw [if_neg hb] at h
        cases hrec : kwScan names (k :: bound) acceptKw rest with
        | error e => rw [hrec] at h; cases h
        | ok pr =>
          obtain ⟨kb', ex'⟩ := pr
          rw [hrec] at h
          simp only [Except.ok.injEq, Prod.mk.injEq] at h
          rw [← h.2, ih (k :: bound) kb' ex' hrec]
          simp [List.filter_cons, hk]
    · rw [if_neg hk] at h
      cases hak : acceptKw
      · rw [hak] at h
        simp at h
      · rw [hak] at h ih
        rw [if_pos rfl] at h
        cases hrec : kwScan names bound true rest with
        | error e => rw [hrec] at h; cases h
        | ok pr =>
          obtain ⟨kb', ex'⟩ := pr
          rw [hrec] at h
          simp only [Except.ok.injEq, Prod.mk.injEq] at h
          rw [← h.2, ih bound kb' ex' hrec]
          simp [List.filter_cons, hk]

/-- On success, `resolveRequired` binds exactly the required names, in
order. -/
theorem resolveRequired_fst {V : Type} (posB kwB : List (String × V)) :
    ∀ (req : List String) (out : List (String × V)),
      resolveRequired posB kwB req = Except.ok out → out.map Prod.fst = req := by
  intro req
  induction req with
  | nil =>
    intro out h
    rw [resolveRequired] at h
    cases h
    rfl
  | cons r rest ih =>
    intro out h
    rw [resolveRequired] at h
    cases hl : (posB.lookup r).orElse fun _ => kwB.lookup r with
    | none => rw [hl] at h; cases h
    | some v =>
      rw [hl] at h
      cases hrec : resolveRequired posB kwB rest with
      | error e => rw [hrec] at h; cases h
      | ok tl =>
        rw [hrec] at h
        simp only [Except.ok.injEq] at h
        rw [← h]
        simp [ih tl hrec]

/-- `resolveDefaulted` binds exactly the defaulted names, in order. -/
theorem resolveDefaulted_fst {V : Type} (posB kwB : List (String × V)) :
    ∀ dl : List (String × V),
      (resolveDefaulted posB kwB dl).map Prod.fst = dl.map Prod.fst := by
  intro dl
  induction dl with
  | nil => rfl
  | cons p rest ih =>
    obtain ⟨d, dv⟩ := p
    simp [resolveDefaulted, ih]

/-- A key that occurs among an association list's keys has a lookup. -/
theorem lookup_mem_fst {V : Type} :
    ∀ (l : List (String × V)) (n : String),
      n ∈ l.map Prod.fst → (l.lookup n).isSome := by
  intro l
  induction l with
  | nil => intro n h; cases h
  | cons p rest ih =>
    intro n h
    obtain ⟨a, b⟩ := p
    by_cases hn : n = a
    · simp [List.lookup_cons, hn]
    · have : n ∈ rest.map Prod.fst := by
        simpa [hn] using h
      simp [List.lookup_cons, show (n == a) = false by simpa using hn, ih n this]

/-- When every annotation name has a binding, the assignment section touches
exactly the annotation names, in annotation order. -/
theorem assigns_fst {V : Type} (bound : List (String × V)) :
    ∀ anns : List String, (∀ n ∈ anns, (bound.lookup n).isSome) →
      ((anns.filterMap fun n => (bound.lookup n).map fun v => (n, v)).map Prod.fst)
        = anns := by
  intro anns
  induction anns with
  | nil => intro _; rfl
  | cons x xs ih =>
    intro h
    obtain ⟨v, hv⟩ := Option.isSome_iff_exists.mp (h x (List.mem_cons_self x xs))
    simp [List.filterMap_cons, hv, ih fun n hn => h n (List.mem_cons_of_mem x hn)]

/-- The generated parameter names are a permutation of the merged annotation
names: the stable partition reorders but neither drops nor repeats. -/
theorem paramNames_perm {V : Type} (anns : List String)
    (d : List (String × V)) (ui gk : Bool) :
    (paramNames (genInit anns d ui gk)).Perm anns := by
  have h1 : paramNames (genInit anns d ui gk)
      = (anns.filter fun a => (d.lookup a).isNone)
        ++ (anns.filter fun a => (d.lookup a).isSome) := by
    simp [paramNames, genInit, defaulted_names]
  have h2 : (anns.filter fun a => (d.lookup a).isSome)
      = anns.filter fun a => !((d.lookup a).isNone) := by
    apply List.filter_congr
    intro a _
    cases d.lookup a <;> rfl
  rw [h1, h2]
  exact List.filter_append_perm _ anns

/-- What a successful binding of a call against the generated signature
determines: the named parameters are bound in signature order, the `*args`
extra is the positional overflow past the named parameters, and the
`**kwargs` extra is exactly the keywords naming no parameter. -/
theorem bindCall_ok {V : Type} (g : GenInit V) (pos : List V)
    (kw bound : List (String × V)) (extraPos : List V)
    (extraKw : List (String × V))
    (h : bindCall g pos kw = Except.ok (bound, extraPos, extraKw)) :
    bound.map Prod.fst = paramNames g
    ∧ extraPos = pos.drop (paramNames g).length
    ∧ extraKw = kw.filter fun p => decide (p.1 ∉ paramNames g) := by
  rw [bindCall] at h
  split at h
  · cases h
  · split at h
    next e he => cases h
    next kwB exK hkw =>
      split at h
      next e he => cases h
      next reqB hreq =>
        simp only [Except.ok.injEq, Prod.mk.injEq] at h
        obtain ⟨hb, hp, hk⟩ := h
        refine ⟨?_, hp.symm, ?_⟩
        · rw [← hb]
          simp [resolveRequired_fst _ _ _ _ hreq, resolveDefaulted_fst, paramNames]
        · rw [← hk]
          exact kwScan_extra _ _ kw _ kwB exK hkw

/-- C7. A successful call of the generated constructor assigns every declared
field exactly once, in merged annotation order (the execution trace lists the
assignments before the hook by construction), and the post-construction hook,
when one exists, is invoked last with exactly the positional overflow and the
keywords that name no field parameter. -/
theorem c7_assign_all_then_hook (anns : List String) (d : List (String × Int))
    (ui gk : Bool) (pos : List Int) (kw : List (String × Int))
    (tr : InitTrace Int)
    (hrun : runInit anns d ui gk pos kw = Except.ok tr) :
    tr.assigns.map Prod.fst = anns
    ∧ tr.hook = if ui then
        some (pos.drop anns.length, kw.filter fun p => decide (p.1 ∉ anns))
      else none := by
  rw [runInit] at hrun
  cases hcall : bindCall (genInit anns d ui gk) pos kw with
  | error e => rw [hcall] at hrun; cases hrun
  | ok res =>
    obtain ⟨bound, extraPos, extraKw⟩ := res
    rw [hcall] at hrun
    obtain ⟨hb, hp, hk⟩ := bindCall_ok _ _ _ _ _ _ hcall
    have hperm := paramNames_perm anns d ui gk
    cases hrun
    constructor
    · apply assigns_fst
      intro n hn
      apply lookup_mem_fst
      rw [hb]
      exact hperm.mem_iff.mpr hn
    · cases ui with
      | false => simp
      | true =>
        have h1 : extraPos = pos.drop anns.length := by
          rw [hp, hperm.length_eq]
        have h2 : extraKw = kw.filter fun p => decide (p.1 ∉ anns) := by
          rw [hk]
          apply List.filter_congr
          intro p _
          exact decide_eq_decide.mpr (not_congr hperm.mem_iff)
        simp [h1, h2]

/-- Witness for C7 at the schema `a, b = 2, c` with a post-init hook, called
as `(1, 3, 9, 7, z=5)`: fields bound `a=1, c=3, b=9`, assigned in merged
order `a, b, c`, and the hook receives exactly the extras `(7, z=5)`. -/
theorem c7_witness :
    (InitTrace.mk [("a", (1 : Int)), ("b", 9), ("c", 3)]
        (some ([7], [("z", 5)]))).assigns.map Prod.fst = ["a", "b", "c"]
    ∧ (InitTrace.mk [("a", (1 : Int)), ("b", 9), ("c", 3)]
        (some ([7], [("z", 5)]))).hook
      = if true then
          some ((([1, 3, 9, 7] : List Int)).drop (["a", "b", "c"] : List String).length,
            ([("z", (5 : Int))]).filter fun p => decide (p.1 ∉ (["a", "b", "c"] : List String)))
        else none :=
  c7_assign_all_then_hook ["a", "b", "c"] [("b", 2)] true false [1, 3, 9, 7]
    [("z", 5)] (InitTrace.mk [("a", 1), ("b", 9), ("c", 3)] (some ([7], [("z", 5)])))
    (by rfl)

/-- C9: evidence for the code bug. The repository's tests
(`tests.py::test_kw_only`) require that requesting keyword-only construction
makes positional invocation fail, but `generate_init` (dataclass.py lines
136-164) reads no such option: whatever the `kwargs` option is set to, the
generated constructor's field parameters stay positional-or-keyword and a
purely positional call binds successfully. -/
theorem c9_positional_invocation_succeeds (gk : Bool) :
    runInit ["a", "b"] ([] : List (String × Int)) false gk [1, 2] []
      = Except.ok ⟨[("a", 1), ("b", 2)], none⟩ := by
  cases gk <;> rfl

/-- C6. A frozen class rejects every attribute write and every attribute
delete, whatever the name and whether or not the attribute is already set,
while the generated constructor assigns all its fields through the
unconditional low-level write path and therefore completes. -/
theorem c6_frozen_rejects_all_mutation :
    (∀ (st : AttrState Int) (n : String) (v : Int),
        setattrMeth true st n v = Except.error MutErr.frozenError)
    ∧ (∀ (st : AttrState Int) (n : String),
        delattrMeth true st n = Except.error MutErr.frozenError)
    ∧ ∀ (flds : List (String × Int)) (st : AttrState Int),
        runAssignments true flds st
          = Except.ok (flds.foldl (fun s p => objectSetattr s p.1 p.2) st) := by
  refine ⟨fun st n v => rfl, fun st n => rfl, ?_⟩
  intro flds
  induction flds with
  | nil => intro st; rfl
  | cons p rest ih =>
    intro st
    obtain ⟨n, v⟩ := p
    simp [runAssignments, initAssign, ih, List.foldl_cons]

/-- C4. The generated constructor copies a copyable default value iff the
incoming argument is that exact object (identity, not equality): (i) passing
the very default stores a fresh object holding the default's content;
(ii) a distinct-but-equal argument is stored by reference, uncopied;
(iii) two instances constructed with the default hold copies at distinct
addresses, each with the default's content, and mutating the first copy
leaves the second copy's content unchanged. -/
theorem c4_default_copied_only_on_identity (fd : FieldDefault) (argEq : Obj)
    (h : Heap) (fresh1 fresh2 : Nat)
    (hc : fd.hasCopy = true)
    (hne : argEq.addr ≠ fd.obj.addr)
    (_hceq : h argEq.addr = h fd.obj.addr)
    (hf1 : fresh1 ≠ fd.obj.addr)
    (hf12 : fresh1 ≠ fresh2) :
    (processArg (some fd) fd.obj fresh1 h).1 = ⟨fresh1⟩
    ∧ (processArg (some fd) fd.obj fresh1 h).2 fresh1 = h fd.obj.addr
    ∧ processArg (some fd) argEq fresh1 h = (argEq, h)
    ∧ (let step1 := processArg (some fd) fd.obj fresh1 h
       let step2 := processArg (some fd) fd.obj fresh2 step1.2
       step1.1.addr ≠ step2.1.addr
         ∧ step2.2 step2.1.addr = h fd.obj.addr
         ∧ heapSet step2.2 step1.1.addr [] step2.1.addr
             = step2.2 step2.1.addr) := by
  have hbeq : (fd.obj.addr == fd.obj.addr) = true := by simp
  have hbne : (argEq.addr == fd.obj.addr) = false := by
    simp [hne]
  refine ⟨?_, ?_, ?_, ?_, ?_, ?_⟩
  · simp [processArg, hc, hbeq]
  · simp [processArg, hc, hbeq, heapSet]
  · simp [processArg, hc, hbne]
  · simp [processArg, hc, hbeq, hf12]
  · simp [processArg, hc, hbeq, heapSet, hf12, Ne.symm hf1]
  · simp [processArg, hc, hbeq, heapSet, Ne.symm hf12]

/-- Witness for C4: default object at address 0 with content `[1, 2]`, a
distinct argument at address 5, fresh addresses 10 and 11. -/
theorem c4_witness :
    (processArg (some ⟨⟨0⟩, true⟩) ⟨0⟩ 10 (fun _ => [1, 2])).1 = ⟨10⟩
    ∧ processArg (some ⟨⟨0⟩, true⟩) ⟨5⟩ 10 (fun _ => [1, 2])
        = (⟨5⟩, fun _ => [1, 2]) :=
  ⟨(c4_default_copied_only_on_identity ⟨⟨0⟩, true⟩ ⟨5⟩ (fun _ => [1, 2]) 10 11
      rfl (by decide) rfl (by decide) (by decide)).1,
   (c4_default_copied_only_on_identity ⟨⟨0⟩, true⟩ ⟨5⟩ (fun _ => [1, 2]) 10 11
      rfl (by decide) rfl (by decide) (by decide)).2.2.1⟩

/-- A field list whose references all point at the instance being rendered is
rendered successfully whatever the recursive rendering returns. -/
theorem renderParts_selfref_isSome (rec : Nat → Option String) (selfA : Nat) :
    ∀ l : List (String × PyVal), (∀ p ∈ l, selfRefOnly selfA p.2 = true) →
      (renderParts rec selfA l).isSome := by
  intro l
  induction l with
  | nil => intro _; simp [renderParts]
  | cons p rest ih =>
    intro hl
    obtain ⟨f, v⟩ := p
    have hv := hl (f, v) (List.mem_cons_self _ _)
    have hrest := ih fun q hq => hl q (List.mem_cons_of_mem _ hq)
    cases hr : renderParts rec selfA rest with
    | none => rw [hr] at hrest; simp at hrest
    | some tl =>
      cases v with
      | atom k => simp [renderParts, hr]
      | ref b =>
        have hb : b = selfA := by simpa [selfRefOnly] using hv
        simp [renderParts, hr, hb]

/-- C5 (amended). Representation of an instance whose fields are atoms or
direct self-references terminates at depth one, the self-referential field
being rendered as the ellipsis marker — concretely, `r.recurse = r` renders
as `R(x=...)`. (The indirect two-hop cycle does NOT terminate; see the
counterexample theorem.) -/
theorem c5_selfref_repr_terminates (h : IHeap) (a : Nat)
    (hs : ∀ p ∈ (h a).flds, selfRefOnly a p.2 = true) :
    (reprFuel h 1 a).isSome ∧ reprFuel selfHeap 1 0 = some "R(x=...)" := by
  constructor
  · have hu : reprFuel h 1 a =
        match renderParts (fun b => reprFuel h 0 b) a (h a).flds with
        | some parts => some ((h a).cls ++ "(" ++ String.intercalate ", " parts ++ ")")
        | none => none := rfl
    rw [hu]
    cases hr : renderParts (fun b => reprFuel h 0 b) a (h a).flds with
    | none =>
      have := renderParts_selfref_isSome (fun b => reprFuel h 0 b) a (h a).flds hs
      rw [hr] at this
      simp at this
    | some parts => simp
  · rfl

/-- Witness for C5 at the single self-referential instance. -/
theorem c5_witness :
    (reprFuel selfHeap 1 0).isSome ∧ reprFuel selfHeap 1 0 = some "R(x=...)" :=
  c5_selfref_repr_terminates selfHeap 0 (by decide)

/-- Rendering either instance of the two-hop cycle fails at every depth: each
needs the other rendered at one less depth, and nothing succeeds at depth
zero. -/
theorem cycle_repr_none :
    ∀ n, reprFuel cycleHeap n 0 = none ∧ reprFuel cycleHeap n 1 = none := by
  intro n
  induction n with
  | zero => exact ⟨rfl, rfl⟩
  | succ k ih =>
    constructor
    · have hu : reprFuel cycleHeap (k + 1) 0 =
          match renderParts (fun b => reprFuel cycleHeap k b) 0 (cycleHeap 0).flds with
          | some parts =>
              some ((cycleHeap 0).cls ++ "(" ++ String.intercalate ", " parts ++ ")")
          | none => none := rfl
      rw [hu]
      have hflds : (cycleHeap 0).flds = [("x", PyVal.ref 1)] := rfl
      rw [hflds]
      simp [renderParts, ih.2]
    · have hu : reprFuel cycleHeap (k + 1) 1 =
          match renderParts (fun b => reprFuel cycleHeap k b) 1 (cycleHeap 1).flds with
          | some parts =>
              some ((cycleHeap 1).cls ++ "(" ++ String.intercalate ", " parts ++ ")")
          | none => none := rfl
      rw [hu]
      have hflds : (cycleHeap 1).flds = [("x", PyVal.ref 0)] := rfl
      rw [hflds]
      simp [renderParts, ih.1]

/-- C5: counterexample. The claim says representation over a two-hop cycle
also terminates; in the source only a field that `is self` is cut off, so the
rendering of either instance of the two-hop cycle recurses forever — no
recursion depth suffices. -/
theorem c5_two_hop_cycle_counterexample : ¬ ReprTerminates cycleHeap 0 := by
  rintro ⟨n, hn⟩
  rw [(cycle_repr_none n).1] at hn
  simp at hn

end Dataclassy
